import Mathlib

/-!
Shallow embedding of the ScreenShot capture tool (screenshot.py and
screenshot_cli.py) and proofs about its specification.

Modelling conventions:
  * Path strings are `List Char` (named `Str`), so that the pathlib-style
    operations (stem, suffix, parent, join) are plain recursive functions.
  * Side effects (directory creation, sleeping, invoking the capture
    primitive, saving, writing to stdout/stderr) are recorded as an explicit
    `Event` trace in the order the code performs them.
  * Python exceptions that propagate are `Except.error`; exceptions caught
    and converted to a boolean result stay inside `Except.ok`.
  * The wall clock is idealised: time advances only while sleeping, so the
    elapsed time observed at the first loop check of interval capture is 0.
  * The capture primitive and the encoder are external collaborators; a
    `Grabber` oracle decides whether the n-th grab or save call raises.
-/

deriving instance DecidableEq for Except

namespace ScreenShotSpec

abbrev Str := List Char

/-- A calendar date-time, the value `datetime.now()` returns, with the
fields the `%Y%m%d_%H%M%S` format string reads. -/
structure DateTime where
  year : Nat
  month : Nat
  day : Nat
  hour : Nat
  minute : Nat
  second : Nat
deriving DecidableEq

/-- Decimal digits of `n`, left-padded with `'0'` to at least `width`
characters: the semantics of Python `"%0Nd"` formatting for non-negative
values. -/
def padNum (width n : Nat) : Str :=
  let ds := Nat.toDigits 10 n
  List.replicate (width - ds.length) '0' ++ ds

/-- `datetime.strftime("%Y%m%d_%H%M%S")`: zero-padded 4-digit year,
2-digit month and day, an underscore, then 2-digit hour, minute, second. -/
def strftimeYmdHMS (t : DateTime) : Str :=
  padNum 4 t.year ++ padNum 2 t.month ++ padNum 2 t.day ++ ['_'] ++
    padNum 2 t.hour ++ padNum 2 t.minute ++ padNum 2 t.second

/-- Fuelled worker for `replaceAll`; fuel bounds the number of scan steps,
each of which consumes at least one character. -/
def replaceAllAux (pat rep : Str) : Nat → Str → Str
  | 0, s => s
  | _ + 1, [] => []
  | fuel + 1, c :: rest =>
    if pat ≠ [] ∧ pat <+: (c :: rest) then
      rep ++ replaceAllAux pat rep fuel ((c :: rest).drop pat.length)
    else
      c :: replaceAllAux pat rep fuel rest

/-- Python `str.replace(pat, rep)`: replace every non-overlapping
occurrence of `pat`, scanning left to right. -/
def replaceAll (pat rep s : Str) : Str :=
  replaceAllAux pat rep s.length s

/-- POSIX root of a path string, as pathlib computes it: exactly two
leading slashes give the special root `"//"`, otherwise one or more
leading slashes give `"/"`. -/
def rootOf (s : Str) : Str :=
  if s.take 2 = ['/', '/'] ∧ s.take 3 ≠ ['/', '/', '/'] then ['/', '/']
  else if s.take 1 = ['/'] then ['/']
  else []

/-- Split a string at every `'/'` character. -/
def splitOnSlash : Str → List Str
  | [] => [[]]
  | c :: rest =>
    if c = '/' then [] :: splitOnSlash rest
    else
      match splitOnSlash rest with
      | [] => [[c]]
      | g :: gs => (c :: g) :: gs

/-- A parsed `PurePosixPath`: the root (possibly empty) and the retained
components (empty and `"."` segments are dropped, as pathlib does). -/
structure PurePath where
  root : Str
  comps : List Str
deriving DecidableEq

/-- `pathlib.PurePosixPath(s)`. -/
def parsePath (s : Str) : PurePath :=
  ⟨rootOf s, (splitOnSlash s).filter (fun c => decide (c ≠ [] ∧ c ≠ ['.']))⟩

/-- `str()` of a parsed path: the root followed by the components joined
with `'/'`; the empty relative path prints as `"."`. -/
def pathStr (p : PurePath) : Str :=
  if p.root = [] ∧ p.comps = [] then ['.']
  else p.root ++ List.intercalate ['/'] p.comps

/-- `PurePosixPath(s).name`: the final component, or empty when there is
none. -/
def nameOf (s : Str) : Str :=
  ((parsePath s).comps.getLast?).getD []

/-- Index of the last `'.'` in a name, Python `name.rfind('.')` when a dot
exists. -/
def lastDotIdx (n : Str) : Option Nat :=
  ((List.range n.length).filter (fun i => decide (n.getD i ' ' = '.'))).getLast?

/-- `PurePosixPath` `stem` of a name: the name with its last suffix
removed, where a suffix requires `0 < i < len(name) - 1` for the last dot
index `i`. -/
def stemOfName (n : Str) : Str :=
  match lastDotIdx n with
  | some i => if 0 < i ∧ i + 1 < n.length then n.take i else n
  | none => n

/-- `PurePosixPath` `suffix` of a name. -/
def suffixOfName (n : Str) : Str :=
  match lastDotIdx n with
  | some i => if 0 < i ∧ i + 1 < n.length then n.drop i else []
  | none => []

/-- `PurePosixPath(s).parent`: drop the last retained component. -/
def parentPath (s : Str) : PurePath :=
  let p := parsePath s
  ⟨p.root, p.comps.dropLast⟩

/-- The two error kinds the spec distinguishes at construction and
validation time. -/
inductive ErrKind where
  | invalidArgument
  | unsupportedPlatform
deriving DecidableEq

/-- A raised Python exception: its kind and its message. -/
structure Err where
  kind : ErrKind
  msg : String
deriving DecidableEq

/-- The kind of the error of a computation, `none` when it returned
normally. -/
def exceptKind {α : Type} : Except Err α → Option ErrKind
  | .error e => some e.kind
  | .ok _ => none

/-- Observable side effects, in program order. -/
inductive Event where
  | mkdirp (path : Str)
  | platformQuery (result : String)
  | sleep (secs : ℚ)
  | grab (bbox : Option (Int × Int × Int × Int))
  | save (path : Str)
  | stdout (msg : String)
  | stderr (msg : String)
deriving DecidableEq

/-- Whether an event is a capture-related call (grab or save). -/
def isCaptureEvent : Event → Bool
  | .grab _ => true
  | .save _ => true
  | _ => false

/-- Whether the trace contains a diagnostic-stream write. -/
def hasStderr (evs : List Event) : Bool :=
  evs.any fun e => match e with | .stderr _ => true | _ => false

/-- The paths of the save calls in a trace, in order. -/
def savePaths (evs : List Event) : List Str :=
  evs.filterMap fun e => match e with | .save p => some p | _ => none

/-- `supported_platforms = ("Windows", "Darwin")`. -/
def supported_platforms : List String := ["Windows", "Darwin"]

/-- Whether `platform.system()`'s result is in `supported_platforms`. -/
def platformSupported (p : String) : Bool :=
  supported_platforms.contains p

/-- The capture session: the resolved output path and the delay. -/
structure ScreenShot where
  output : Str
  delay : Int
deriving DecidableEq

/-- Oracle for the external collaborators: whether the n-th grab call and
the n-th save call raise, and with what message. -/
structure Grabber where
  grabFail : Nat → Option String
  saveFail : Nat → Option String

/-- `ScreenShot._validate_delay`. -/
def ScreenShot._validate_delay (delay : Int) : Except Err Unit :=
  if delay < 0 then .error ⟨.invalidArgument, "Delay must be non-negative"⟩
  else .ok ()

/-- `ScreenShot._validate_interval`. -/
def ScreenShot._validate_interval (interval : ℚ) : Except Err Unit :=
  if interval ≤ 0 then .error ⟨.invalidArgument, "Interval must be positive"⟩
  else .ok ()

/-- `ScreenShot._validate_time_limit`. -/
def ScreenShot._validate_time_limit (time_limit : ℚ) : Except Err Unit :=
  if time_limit ≤ 0 then .error ⟨.invalidArgument, "Time limit must be positive"⟩
  else .ok ()

/-- `ScreenShot._check_platform_support`, parameterised by the value
`platform.system()` returns. -/
def ScreenShot._check_platform_support (p : String) : Except Err Unit :=
  if supported_platforms.contains p then .ok ()
  else .error ⟨.unsupportedPlatform, "Screenshot capture is not supported"⟩

/-- The `".png"` literal the timestamp substitution matches on. -/
def pngExt : Str := ['.', 'p', 'n', 'g']

/-- The pure part of `ScreenShot._generate_filename`: the optional
timestamp substitution `base_name.replace(".png", "_" + ts + ".png")`.
The directory-creation side effect is recorded by `ScreenShot.init`. -/
def _generate_filename (base_name : Str) (add_timestamp : Bool) (now : DateTime) : Str :=
  if add_timestamp then
    replaceAll pngExt ('_' :: (strftimeYmdHMS now ++ pngExt)) base_name
  else base_name

/-- `ScreenShot.__init__`: validate the delay, resolve the output name
(creating its parent directory), store the fields, then check platform
support.  Returns the event trace and either the session or the raised
error. -/
def ScreenShot.init (output : Str) (delay : Int) (add_timestamp : Bool)
    (now : DateTime) (platformName : String) :
    List Event × Except Err ScreenShot :=
  match ScreenShot._validate_delay delay with
  | .error e => ([], .error e)
  | .ok _ =>
    let resolved := _generate_filename output add_timestamp now
    let evs := [Event.mkdirp (pathStr (parentPath resolved))]
    match ScreenShot._check_platform_support platformName with
    | .error e => (evs ++ [Event.platformQuery platformName], .error e)
    | .ok _ => (evs ++ [Event.platformQuery platformName], .ok ⟨resolved, delay⟩)

/-- `ScreenShot._validate_coordinates`: the isinstance check is vacuous in
the typed model; then `x1 < x2`, `y1 < y2`, and non-negativity, in that
order. -/
def ScreenShot._validate_coordinates (x1 y1 x2 y2 : Int) : Except Err Unit :=
  if x1 ≥ x2 then .error ⟨.invalidArgument, "x1 must be less than x2"⟩
  else if y1 ≥ y2 then .error ⟨.invalidArgument, "y1 must be less than y2"⟩
  else if x1 < 0 ∨ y1 < 0 ∨ x2 < 0 ∨ y2 < 0 then
    .error ⟨.invalidArgument, "Coordinates must be non-negative"⟩
  else .ok ()

/-- `ScreenShot.capture_screen`: print, sleep, grab the full display, save
to the resolved path; a grab or save exception is caught, reported on
stderr and turned into `False`.  Returns the self after the call, the
trace, and the (never-propagating) result. -/
def ScreenShot.capture_screen (s : ScreenShot) (g : Grabber) :
    ScreenShot × List Event × Except Err Bool :=
  let pre := [Event.stdout "Waiting before capturing the full screen",
              Event.sleep (s.delay : ℚ)]
  match g.grabFail 0 with
  | some e =>
    (s, pre ++ [Event.grab none,
        Event.stderr ("Error capturing full screen: " ++ e)], .ok false)
  | none =>
    match g.saveFail 0 with
    | some e =>
      (s, pre ++ [Event.grab none, Event.save s.output,
          Event.stderr ("Error capturing full screen: " ++ e)], .ok false)
    | none =>
      (s, pre ++ [Event.grab none, Event.save s.output,
          Event.stdout "Full-screen screenshot saved"], .ok true)

/-- `ScreenShot.capture_area`: validate the rectangle first (a violation
raises and nothing else happens), then print, sleep, grab the bbox
`(x1, y1, x2, y2)`, save; grab/save exceptions are caught and become
`False`. -/
def ScreenShot.capture_area (s : ScreenShot) (g : Grabber) (x1 y1 x2 y2 : Int) :
    ScreenShot × List Event × Except Err Bool :=
  match ScreenShot._validate_coordinates x1 y1 x2 y2 with
  | .error e => (s, [], .error e)
  | .ok _ =>
    let pre := [Event.stdout "Waiting before capturing the selected area",
                Event.sleep (s.delay : ℚ)]
    match g.grabFail 0 with
    | some e =>
      (s, pre ++ [Event.grab (some (x1, y1, x2, y2)),
          Event.stderr ("Error capturing area: " ++ e)], .ok false)
    | none =>
      match g.saveFail 0 with
      | some e =>
        (s, pre ++ [Event.grab (some (x1, y1, x2, y2)), Event.save s.output,
            Event.stderr ("Error capturing area: " ++ e)], .ok false)
      | none =>
        (s, pre ++ [Event.grab (some (x1, y1, x2, y2)), Event.save s.output,
            Event.stdout "Selected area screenshot saved"], .ok true)

/-- `ScreenShot._generate_unique_interval_filename`: insert the 4-digit
zero-padded sequence number between the stem and the suffix of the output
path, in the same parent directory. -/
def _generate_unique_interval_filename (output : Str) (index : Nat) : Str :=
  let stem := stemOfName (nameOf output)
  let sfx := suffixOfName (nameOf output)
  let parent := parentPath output
  let unique := stem ++ '_' :: padNum 4 index ++ sfx
  pathStr ⟨parent.root, parent.comps ++ [unique]⟩

/-- The `while time.time() - start_time < time_limit` loop of
`capture_interval` under the idealised clock: `elapsed` is the time since
`start_time`, `count` the shots taken so far, `fuel` a structural bound on
the iterations (the loop returns `none` only if fuel runs out with the
condition still true).  A grab or save exception aborts the whole loop;
the enclosing handler reports it on stderr and returns `False`. -/
def intervalLoop (g : Grabber) (output : Str) (interval time_limit : ℚ) :
    Nat → ℚ → Nat → List Event × Option Bool
  | 0, elapsed, _ =>
    if elapsed < time_limit then ([], none)
    else ([Event.stdout "Interval capture completed"], some true)
  | fuel + 1, elapsed, count =>
    if elapsed < time_limit then
      let path := _generate_unique_interval_filename output (count + 1)
      match g.grabFail count with
      | some e =>
        ([Event.grab none,
          Event.stderr ("Error during interval capture: " ++ e)], some false)
      | none =>
        match g.saveFail count with
        | some e =>
          ([Event.grab none, Event.save path,
            Event.stderr ("Error during interval capture: " ++ e)], some false)
        | none =>
          let shotEvs := [Event.grab none, Event.save path,
                          Event.stdout "Screenshot saved"]
          let remaining := time_limit - elapsed
          let step := min interval remaining
          let sleepEvs := if 0 < remaining then [Event.sleep step] else []
          let elapsed' := if 0 < remaining then elapsed + step else elapsed
          let rest := intervalLoop g output interval time_limit fuel elapsed' (count + 1)
          (shotEvs ++ sleepEvs ++ rest.1, rest.2)
    else ([Event.stdout "Interval capture completed"], some true)

/-- `ScreenShot.capture_interval`: validate interval then time limit (a
violation raises before any sleep), then sleep the configured delay and
run the capture loop from elapsed time 0 and counter 0.  The result is
`Except.ok`: grab/save failures inside the loop never propagate. -/
def ScreenShot.capture_interval (s : ScreenShot) (g : Grabber)
    (interval time_limit : ℚ) (fuel : Nat) :
    ScreenShot × List Event × Except Err (Option Bool) :=
  match ScreenShot._validate_interval interval with
  | .error e => (s, [], .error e)
  | .ok _ =>
    match ScreenShot._validate_time_limit time_limit with
    | .error e => (s, [], .error e)
    | .ok _ =>
      let pre := [Event.stdout "Waiting before starting interval capture",
                  Event.sleep (s.delay : ℚ),
                  Event.stdout "Starting interval capture"]
      let r := intervalLoop g s.output interval time_limit fuel 0 0
      (s, pre ++ r.1, .ok r.2)

/-- The optional CLI arguments that drive mode selection (both entry
points parse the same flags). -/
structure CliArgs where
  x1 : Option Int
  y1 : Option Int
  x2 : Option Int
  y2 : Option Int
  interval : Option ℚ
  time_limit : Option ℚ

/-- The three capture modes. -/
inductive CaptureType where
  | interval
  | region
  | fullscreen
deriving DecidableEq

/-- `screenshot_cli.determine_capture_type`. -/
def determine_capture_type (a : CliArgs) : CaptureType :=
  if a.interval.isSome || a.time_limit.isSome then .interval
  else if a.x1.isSome && a.y1.isSome && a.x2.isSome && a.y2.isSome then .region
  else .fullscreen

/-- `screenshot_cli.validate_arguments`: an incomplete interval pair is
rejected first, then incomplete region coordinates. -/
def validate_arguments (a : CliArgs) : Except Err Unit :=
  if (a.interval.isSome || a.time_limit.isSome) &&
      !(a.interval.isSome && a.time_limit.isSome) then
    .error ⟨.invalidArgument, "Both interval and time-limit must be provided"⟩
  else if (a.x1.isSome || a.y1.isSome || a.x2.isSome || a.y2.isSome) &&
      !(a.x1.isSome && a.y1.isSome && a.x2.isSome && a.y2.isSome) then
    .error ⟨.invalidArgument, "All coordinates must be provided"⟩
  else .ok ()

/-- Mode resolution of `screenshot_cli.main`: `validate_arguments`
followed by `determine_capture_type`. -/
def cliResolveMode (a : CliArgs) : Except Err CaptureType :=
  match validate_arguments a with
  | .error e => .error e
  | .ok _ => .ok (determine_capture_type a)

/-- Mode resolution of the `__main__` dispatch in screenshot.py: interval
flags are checked first (with their pairing error), then all-coordinates,
then the partial-coordinates error, else full screen. -/
def mainDispatchMode (a : CliArgs) : Except Err CaptureType :=
  if a.interval.isSome || a.time_limit.isSome then
    if a.interval.isSome && a.time_limit.isSome then .ok .interval
    else .error ⟨.invalidArgument, "Both interval and time-limit must be provided"⟩
  else if a.x1.isSome && a.y1.isSome && a.x2.isSome && a.y2.isSome then .ok .region
  else if a.x1.isSome || a.y1.isSome || a.x2.isSome || a.y2.isSome then
    .error ⟨.invalidArgument, "All coordinates must be provided"⟩
  else .ok .fullscreen

/-- The argument combination on which the two entry points disagree:
interval flags plus one region coordinate. -/
def cornerArgs : CliArgs :=
  ⟨some 5, none, none, none, some 1, some 2⟩

/-- An oracle under which every grab and save call succeeds. -/
def grabberOk : Grabber :=
  ⟨fun _ => none, fun _ => none⟩

/-- An oracle whose very first grab call raises. -/
def grabberFailFirst : Grabber :=
  ⟨fun n => if n = 0 then some "no display" else none, fun _ => none⟩

theorem replaceAllAux_nil (pat rep : Str) (fuel : Nat) :
    replaceAllAux pat rep fuel [] = [] := by
  cases fuel <;> rfl

theorem replaceAllAux_no_occ (pat rep : Str) :
    ∀ (s : Str) (fuel : Nat), s.length ≤ fuel →
      (∀ i, ¬ pat <+: s.drop i) →
      replaceAllAux pat rep fuel s = s := by
  intro s
  induction s with
  | nil => intro fuel _ _; exact replaceAllAux_nil pat rep fuel
  | cons c rest ih =>
    intro fuel hf h
    obtain ⟨f, rfl⟩ : ∃ f, fuel = f + 1 := by
      refine ⟨fuel - 1, ?_⟩
      simp only [List.length_cons] at hf
      omega
    have hc : ¬ (pat ≠ [] ∧ pat <+: (c :: rest)) := by
      intro hx
      exact h 0 hx.2
    simp only [replaceAllAux, if_neg hc]
    have hrec : replaceAllAux pat rep f rest = rest := by
      apply ih
      · simp only [List.length_cons] at hf
        omega
      · intro i
        simpa using h (i + 1)
    rw [hrec]

theorem replaceAllAux_final_occ (pat rep : Str) (hne : pat ≠ []) :
    ∀ (stem : Str) (fuel : Nat), (stem ++ pat).length ≤ fuel →
      (∀ i, i < stem.length → ¬ pat <+: (stem ++ pat).drop i) →
      replaceAllAux pat rep fuel (stem ++ pat) = stem ++ rep := by
  intro stem
  induction stem with
  | nil =>
    intro fuel hf _
    obtain ⟨p, ps, hp⟩ : ∃ p ps, pat = p :: ps := by
      cases pat with
      | nil => exact absurd rfl hne
      | cons p ps => exact ⟨p, ps, rfl⟩
    subst hp
    obtain ⟨f, rfl⟩ : ∃ f, fuel = f + 1 := by
      simp only [List.nil_append, List.length_cons] at hf
      exact ⟨fuel - 1, by omega⟩
    simp only [List.nil_append]
    have hc : (p :: ps) ≠ [] ∧ (p :: ps) <+: (p :: ps) := ⟨by simp, List.prefix_refl _⟩
    simp only [replaceAllAux, if_pos hc, List.drop_length, replaceAllAux_nil, List.append_nil]
  | cons c s' ih =>
    intro fuel hf h
    obtain ⟨f, rfl⟩ : ∃ f, fuel = f + 1 := by
      simp only [List.cons_append, List.length_cons] at hf
      exact ⟨fuel - 1, by omega⟩
    have hc : ¬ (pat ≠ [] ∧ pat <+: (c :: (s' ++ pat))) := by
      intro hx
      exact h 0 (by simp) (by simpa using hx.2)
    rw [List.cons_append]
    simp only [replaceAllAux, if_neg hc]
    have hrec : replaceAllAux pat rep f (s' ++ pat) = s' ++ rep := by
      apply ih
      · simp only [List.cons_append, List.length_cons] at hf
        omega
      · intro i hi
        have := h (i + 1) (by simp only [List.length_cons]; omega)
        simpa using this
    rw [hrec]
    simp

theorem replaceAll_final_occ (pat rep stem : Str) (hne : pat ≠ [])
    (h : ∀ i, i < stem.length → ¬ pat <+: (stem ++ pat).drop i) :
    replaceAll pat rep (stem ++ pat) = stem ++ rep :=
  replaceAllAux_final_occ pat rep hne stem (stem ++ pat).length le_rfl h

theorem replaceAll_no_occ (pat rep s : Str) (h : ∀ i, ¬ pat <+: s.drop i) :
    replaceAll pat rep s = s :=
  replaceAllAux_no_occ pat rep s s.length le_rfl h

/-- C1: the claim says a bare resolved filename gets a default output
directory (e.g. `output/`) prepended.  Evaluating the construction code at
the default input shows the resolved path is the bare filename itself:
its parent has no component, and it differs from the prefixed form the
claim requires.  The CLI's own `--output` help text ("Saves to output/
folder") promises the prefixed behaviour, so this is a divergence of the
code from its documentation. -/
theorem c1_no_output_directory_prefix :
    (ScreenShot.init "screenshot.png".data 0 false ⟨2026, 10, 12, 0, 0, 0⟩ "Darwin").2 =
      Except.ok ⟨"screenshot.png".data, 0⟩ ∧
    (parentPath "screenshot.png".data).comps = [] ∧
    "screenshot.png".data ≠ "output/screenshot.png".data := by
  decide

/-- C3 counterexample: on an unsupported platform with `delay = -1`, the
construction raises InvalidArgument — the delay check runs before the
platform check — not UnsupportedPlatform, refuting the claim's "regardless
of the validity of the other arguments (in particular, even when delay is
negative)". -/
theorem c3_counterexample :
    exceptKind (ScreenShot.init "x.png".data (-1) false ⟨2026, 1, 1, 0, 0, 0⟩ "Linux").2 =
      some ErrKind.invalidArgument ∧
    some ErrKind.invalidArgument ≠ some ErrKind.unsupportedPlatform := by
  decide

/-- C3 amended: on an unsupported platform, construction with any
non-negative delay and arbitrary output path and timestamp flag fails with
UnsupportedPlatform, and no capture (grab or save) is attempted; a
negative delay instead fails earlier with InvalidArgument. -/
theorem c3_unsupported_platform (output : Str) (delay : Int) (ts : Bool)
    (now : DateTime) (p : String)
    (hd : 0 ≤ delay) (hp : platformSupported p = false) :
    exceptKind (ScreenShot.init output delay ts now p).2 = some ErrKind.unsupportedPlatform ∧
    (ScreenShot.init output delay ts now p).1.any isCaptureEvent = false := by
  have h1 : ¬ delay < 0 := not_lt.mpr hd
  have hmem : p ∉ supported_platforms := by
    simpa [platformSupported] using hp
  simp [ScreenShot.init, ScreenShot._validate_delay, ScreenShot._check_platform_support,
    h1, hmem, exceptKind, isCaptureEvent]

theorem c3_unsupported_platform_witness :
    exceptKind (ScreenShot.init "shot.png".data 3 false ⟨2026, 1, 1, 0, 0, 0⟩ "Linux").2 =
      some ErrKind.unsupportedPlatform :=
  (c3_unsupported_platform "shot.png".data 3 false ⟨2026, 1, 1, 0, 0, 0⟩ "Linux"
    (by decide) (by decide)).1

/-- C4: a negative delay fails with InvalidArgument and produces no event
at all — in particular no directory creation and no platform query — and a
non-negative delay on a supported platform constructs the session with the
resolved output path and the given delay (directory creation always
succeeds in this model). -/
theorem c4_delay_validation (output : Str) (delay : Int) (ts : Bool)
    (now : DateTime) (p : String) :
    (delay < 0 →
      ScreenShot.init output delay ts now p =
        ([], Except.error ⟨ErrKind.invalidArgument, "Delay must be non-negative"⟩)) ∧
    (0 ≤ delay → platformSupported p = true →
      (ScreenShot.init output delay ts now p).2 =
        Except.ok ⟨_generate_filename output ts now, delay⟩) := by
  constructor
  · intro h
    simp [ScreenShot.init, ScreenShot._validate_delay, h]
  · intro h hp
    have h1 : ¬ delay < 0 := not_lt.mpr h
    have hmem : p ∈ supported_platforms := by
      simpa [platformSupported] using hp
    simp [ScreenShot.init, ScreenShot._validate_delay, ScreenShot._check_platform_support,
      h1, hmem]

theorem c4_delay_validation_witness :
    ScreenShot.init "a.png".data (-1) false ⟨2026, 1, 1, 0, 0, 0⟩ "Darwin" =
      ([], Except.error ⟨ErrKind.invalidArgument, "Delay must be non-negative"⟩) ∧
    (ScreenShot.init "a.png".data 3 false ⟨2026, 1, 1, 0, 0, 0⟩ "Darwin").2 =
      Except.ok ⟨"a.png".data, 3⟩ := by
  constructor
  · exact (c4_delay_validation "a.png".data (-1) false ⟨2026, 1, 1, 0, 0, 0⟩ "Darwin").1
      (by decide)
  · have h := (c4_delay_validation "a.png".data 3 false ⟨2026, 1, 1, 0, 0, 0⟩ "Darwin").2
      (by decide) (by decide)
    rw [h]
    rfl

/-- C2 counterexample: with a `.jpg` output and timestamp on, the code
leaves the name unchanged — the substitution only targets the literal
`".png"` — refuting "the timestamp is inserted immediately before the file
extension regardless of what the extension is". -/
theorem c2_counterexample :
    _generate_filename "shot.jpg".data true ⟨2026, 1, 2, 3, 4, 5⟩ = "shot.jpg".data ∧
    "shot.jpg".data ≠ "shot_20260102_030405.jpg".data := by
  decide

/-- C2 amended: timestamp insertion works by replacing each occurrence of
the literal `".png"` with `"_<timestamp>.png"`.  When the output ends in
`".png"` and contains no earlier occurrence, this inserts
`_YYYYMMDD_HHMMSS` (4-digit year, 2-digit zero-padded month, day, an
underscore, 2-digit hour, minute, second) immediately before the
extension; an output containing no `".png"` at all is left unchanged. -/
theorem c2_timestamp_insertion (stem base : Str) (now : DateTime)
    (h1 : ∀ i, i < stem.length → ¬ pngExt <+: (stem ++ pngExt).drop i)
    (h2 : ∀ i, i ≤ base.length → ¬ pngExt <+: base.drop i) :
    _generate_filename (stem ++ pngExt) true now =
      stem ++ '_' :: (padNum 4 now.year ++ padNum 2 now.month ++ padNum 2 now.day ++ ['_'] ++
        padNum 2 now.hour ++ padNum 2 now.minute ++ padNum 2 now.second) ++ pngExt ∧
    _generate_filename base true now = base := by
  constructor
  · have hrw : _generate_filename (stem ++ pngExt) true now =
        replaceAll pngExt ('_' :: (strftimeYmdHMS now ++ pngExt)) (stem ++ pngExt) := rfl
    rw [hrw, replaceAll_final_occ pngExt _ stem (by decide) h1]
    simp [strftimeYmdHMS, List.cons_append, List.append_assoc]
  · have hrw : _generate_filename base true now =
        replaceAll pngExt ('_' :: (strftimeYmdHMS now ++ pngExt)) base := rfl
    rw [hrw, replaceAll_no_occ]
    intro i
    by_cases hi : i ≤ base.length
    · exact h2 i hi
    · intro hp
      have hd : base.drop i = [] := List.drop_eq_nil_of_le (by omega)
      rw [hd] at hp
      exact absurd (List.prefix_nil.mp hp) (by decide)

theorem c2_timestamp_insertion_witness :
    _generate_filename "shot.png".data true ⟨2026, 1, 2, 3, 4, 5⟩ =
      "shot_20260102_030405.png".data ∧
    _generate_filename "shot.jpeg".data true ⟨2026, 1, 2, 3, 4, 5⟩ = "shot.jpeg".data := by
  constructor
  · have h := (c2_timestamp_insertion "shot".data "x".data ⟨2026, 1, 2, 3, 4, 5⟩
      (by decide) (by decide)).1
    have he : "shot.png".data = "shot".data ++ pngExt := by decide
    rw [he, h]
    decide
  · exact (c2_timestamp_insertion "shot".data "shot.jpeg".data ⟨2026, 1, 2, 3, 4, 5⟩
      (by decide) (by decide)).2

/-- C5: an invalid rectangle — `x1 >= x2`, or `y1 >= y2`, or a negative
coordinate — makes `capture_area` raise InvalidArgument with an empty
event trace (no sleep, no grab, no save); a valid rectangle passes
validation (the call raises nothing) and the grab is invoked with exactly
the rectangle `(x1, y1, x2, y2)`. -/
theorem c5_area_validation (s : ScreenShot) (g : Grabber) (x1 y1 x2 y2 : Int) :
    ((x1 ≥ x2 ∨ y1 ≥ y2 ∨ x1 < 0 ∨ y1 < 0 ∨ x2 < 0 ∨ y2 < 0) →
      (s.capture_area g x1 y1 x2 y2).2.1 = [] ∧
      exceptKind (s.capture_area g x1 y1 x2 y2).2.2 = some ErrKind.invalidArgument) ∧
    (x1 < x2 → y1 < y2 → 0 ≤ x1 → 0 ≤ y1 → 0 ≤ x2 → 0 ≤ y2 →
      Event.grab (some (x1, y1, x2, y2)) ∈ (s.capture_area g x1 y1 x2 y2).2.1 ∧
      exceptKind (s.capture_area g x1 y1 x2 y2).2.2 = none) := by
  constructor
  · intro hbad
    by_cases hx : x1 ≥ x2
    · have hval : ScreenShot._validate_coordinates x1 y1 x2 y2 =
          .error ⟨.invalidArgument, "x1 must be less than x2"⟩ := by
        simp [ScreenShot._validate_coordinates, hx]
      simp [ScreenShot.capture_area, hval, exceptKind]
    · by_cases hy : y1 ≥ y2
      · have hval : ScreenShot._validate_coordinates x1 y1 x2 y2 =
            .error ⟨.invalidArgument, "y1 must be less than y2"⟩ := by
          simp [ScreenShot._validate_coordinates, hx, hy]
        simp [ScreenShot.capture_area, hval, exceptKind]
      · have hneg : x1 < 0 ∨ y1 < 0 ∨ x2 < 0 ∨ y2 < 0 := by
          rcases hbad with h | h | h | h | h | h
          · exact absurd h hx
          · exact absurd h hy
          · exact Or.inl h
          · exact Or.inr (Or.inl h)
          · exact Or.inr (Or.inr (Or.inl h))
          · exact Or.inr (Or.inr (Or.inr h))
        have hval : ScreenShot._validate_coordinates x1 y1 x2 y2 =
            .error ⟨.invalidArgument, "Coordinates must be non-negative"⟩ := by
          unfold ScreenShot._validate_coordinates
          rw [if_neg hx, if_neg hy, if_pos hneg]
        simp [ScreenShot.capture_area, hval, exceptKind]
  · intro h1 h2 h3 h4 h5 h6
    have hx : ¬ x1 ≥ x2 := not_le.mpr h1
    have hy : ¬ y1 ≥ y2 := not_le.mpr h2
    have hneg : ¬ (x1 < 0 ∨ y1 < 0 ∨ x2 < 0 ∨ y2 < 0) := by
      push_neg
      exact ⟨h3, h4, h5, h6⟩
    have hval : ScreenShot._validate_coordinates x1 y1 x2 y2 = .ok () := by
      unfold ScreenShot._validate_coordinates
      rw [if_neg hx, if_neg hy, if_neg hneg]
    cases hg : g.grabFail 0 with
    | none =>
      cases hs : g.saveFail 0 with
      | none => simp [ScreenShot.capture_area, hval, hg, hs, exceptKind]
      | some e => simp [ScreenShot.capture_area, hval, hg, hs, exceptKind]
    | some e => simp [ScreenShot.capture_area, hval, hg, exceptKind]

theorem c5_area_validation_witness :
    ((ScreenShot.capture_area ⟨"a.png".data, 0⟩ grabberOk 10 10 5 20).2.1 = [] ∧
      exceptKind (ScreenShot.capture_area ⟨"a.png".data, 0⟩ grabberOk 10 10 5 20).2.2 =
        some ErrKind.invalidArgument) ∧
    (Event.grab (some (0, 0, 5, 5)) ∈
        (ScreenShot.capture_area ⟨"a.png".data, 0⟩ grabberOk 0 0 5 5).2.1 ∧
      exceptKind (ScreenShot.capture_area ⟨"a.png".data, 0⟩ grabberOk 0 0 5 5).2.2 = none) := by
  constructor
  · exact (c5_area_validation ⟨"a.png".data, 0⟩ grabberOk 10 10 5 20).1
      (Or.inl (by decide))
  · exact (c5_area_validation ⟨"a.png".data, 0⟩ grabberOk 0 0 5 5).2
      (by decide) (by decide) (by decide) (by decide) (by decide) (by decide)

theorem intervalLoop_savePaths (g : Grabber) (out : Str) (iv tl : ℚ) :
    ∀ (fuel : Nat) (elapsed : ℚ) (count : Nat),
      ∃ n, savePaths (intervalLoop g out iv tl fuel elapsed count).1 =
        (List.range n).map (fun i => _generate_unique_interval_filename out (count + i + 1)) := by
  intro fuel
  induction fuel with
  | zero =>
    intro elapsed count
    refine ⟨0, ?_⟩
    by_cases h : elapsed < tl <;> simp [intervalLoop, h, savePaths]
  | succ f ih =>
    intro elapsed count
    by_cases h : elapsed < tl
    · cases hg : g.grabFail count with
      | some e => exact ⟨0, by simp [intervalLoop, h, hg, savePaths]⟩
      | none =>
        cases hs : g.saveFail count with
        | some e =>
          refine ⟨1, ?_⟩
          simp [intervalLoop, h, hg, hs, savePaths, List.range_succ]
        | none =>
          obtain ⟨m, hm⟩ :=
            ih (if 0 < tl - elapsed then elapsed + min iv (tl - elapsed) else elapsed) (count + 1)
          refine ⟨m + 1, ?_⟩
          have hcons : savePaths (intervalLoop g out iv tl (f + 1) elapsed count).1 =
              _generate_unique_interval_filename out (count + 1) ::
                savePaths (intervalLoop g out iv tl f
                  (if 0 < tl - elapsed then elapsed + min iv (tl - elapsed) else elapsed)
                  (count + 1)).1 := by
            by_cases hr : 0 < tl - elapsed <;>
              simp [intervalLoop, h, hg, hs, hr, savePaths]
          rw [hcons, hm, List.range_succ_eq_map, List.map_cons, List.map_map]
          simp only [Nat.add_zero]
          congr 1
          apply List.map_congr_left
          intro i _
          simp only [Function.comp_apply]
          congr 1
          omega
    · exact ⟨0, by simp [intervalLoop, h, savePaths]⟩

/-- C6: a non-positive interval or time limit makes `captureInterval`
raise InvalidArgument with an empty event trace — before any sleep or
capture; a positive interval and time limit (with at least one unit of
loop fuel) always reach a first capture, because the elapsed-time check
precedes each capture and elapsed time is 0 at the first check, and when
the first grab succeeds the first save also occurs. -/
theorem c6_interval_validation_and_first_shot (s : ScreenShot) (g : Grabber)
    (iv tl : ℚ) (fuel : Nat) :
    ((iv ≤ 0 ∨ tl ≤ 0) →
      (s.capture_interval g iv tl fuel).2.1 = [] ∧
      exceptKind (s.capture_interval g iv tl fuel).2.2 = some ErrKind.invalidArgument) ∧
    (0 < iv → 0 < tl → 1 ≤ fuel →
      Event.grab none ∈ (s.capture_interval g iv tl fuel).2.1 ∧
      (g.grabFail 0 = none →
        Event.save (_generate_unique_interval_filename s.output 1) ∈
          (s.capture_interval g iv tl fuel).2.1)) := by
  constructor
  · intro hbad
    by_cases hiv : iv ≤ 0
    · have hval : ScreenShot._validate_interval iv =
          .error ⟨.invalidArgument, "Interval must be positive"⟩ := by
        simp [ScreenShot._validate_interval, hiv]
      simp [ScreenShot.capture_interval, hval, exceptKind]
    · have htl : tl ≤ 0 := by
        rcases hbad with h | h
        · exact absurd h hiv
        · exact h
      have hvi : ScreenShot._validate_interval iv = .ok () := by
        simp [ScreenShot._validate_interval, hiv]
      have hvt : ScreenShot._validate_time_limit tl =
          .error ⟨.invalidArgument, "Time limit must be positive"⟩ := by
        simp [ScreenShot._validate_time_limit, htl]
      simp [ScreenShot.capture_interval, hvi, hvt, exceptKind]
  · intro hiv htl hfuel
    have hvi : ScreenShot._validate_interval iv = .ok () := by
      simp [ScreenShot._validate_interval, not_le.mpr hiv]
    have hvt : ScreenShot._validate_time_limit tl = .ok () := by
      simp [ScreenShot._validate_time_limit, not_le.mpr htl]
    obtain ⟨f, rfl⟩ : ∃ f, fuel = f + 1 := ⟨fuel - 1, by omega⟩
    have h0 : (0 : ℚ) < tl := htl
    cases hg : g.grabFail 0 with
    | some e =>
      constructor
      · simp [ScreenShot.capture_interval, hvi, hvt, intervalLoop, h0, hg]
      · intro hcontra
        exact absurd hcontra (by simp)
    | none =>
      cases hs : g.saveFail 0 with
      | some e =>
        constructor <;>
          simp [ScreenShot.capture_interval, hvi, hvt, intervalLoop, h0, hg, hs]
      | none =>
        constructor <;>
          simp [ScreenShot.capture_interval, hvi, hvt, intervalLoop, h0, hg, hs]

theorem c6_interval_validation_witness :
    ((ScreenShot.capture_interval ⟨"shot.png".data, 0⟩ grabberOk 0 5 10).2.1 = [] ∧
      exceptKind (ScreenShot.capture_interval ⟨"shot.png".data, 0⟩ grabberOk 0 5 10).2.2 =
        some ErrKind.invalidArgument) ∧
    Event.grab none ∈ (ScreenShot.capture_interval ⟨"shot.png".data, 0⟩ grabberOk 1 2 5).2.1 ∧
    Event.save (_generate_unique_interval_filename "shot.png".data 1) ∈
      (ScreenShot.capture_interval ⟨"shot.png".data, 0⟩ grabberOk 1 2 5).2.1 := by
  refine ⟨?_, ?_, ?_⟩
  · exact (c6_interval_validation_and_first_shot ⟨"shot.png".data, 0⟩ grabberOk 0 5 10).1
      (Or.inl (by norm_num))
  · exact ((c6_interval_validation_and_first_shot ⟨"shot.png".data, 0⟩ grabberOk 1 2 5).2
      (by norm_num) (by norm_num) (by norm_num)).1
  · exact ((c6_interval_validation_and_first_shot ⟨"shot.png".data, 0⟩ grabberOk 1 2 5).2
      (by norm_num) (by norm_num) (by norm_num)).2 rfl

/-- C7: the save calls of an interval capture are, in order, exactly the
per-shot filenames numbered 1, 2, 3, …, each obtained by inserting the
underscore and the 4-digit zero-padded counter between the stem and the
suffix of the session's output path, in its parent directory; concretely
for `output/shot.png` the first three shots are `output/shot_0001.png`,
`output/shot_0002.png`, `output/shot_0003.png`. -/
theorem c7_interval_sequence_naming (s : ScreenShot) (g : Grabber)
    (iv tl : ℚ) (fuel : Nat) :
    (∃ n, savePaths (s.capture_interval g iv tl fuel).2.1 =
      (List.range n).map (fun i => _generate_unique_interval_filename s.output (i + 1))) ∧
    _generate_unique_interval_filename "output/shot.png".data 1 = "output/shot_0001.png".data ∧
    _generate_unique_interval_filename "output/shot.png".data 2 = "output/shot_0002.png".data ∧
    _generate_unique_interval_filename "output/shot.png".data 3 = "output/shot_0003.png".data := by
  refine ⟨?_, by decide, by decide, by decide⟩
  cases hvi : ScreenShot._validate_interval iv with
  | error e => exact ⟨0, by simp [ScreenShot.capture_interval, hvi, savePaths]⟩
  | ok u =>
    cases hvt : ScreenShot._validate_time_limit tl with
    | error e => exact ⟨0, by simp [ScreenShot.capture_interval, hvi, hvt, savePaths]⟩
    | ok u' =>
      obtain ⟨n, hn⟩ := intervalLoop_savePaths g s.output iv tl fuel 0 0
      refine ⟨n, ?_⟩
      have hpre : savePaths (s.capture_interval g iv tl fuel).2.1 =
          savePaths (intervalLoop g s.output iv tl fuel 0 0).1 := by
        cases u
        simp [ScreenShot.capture_interval, hvi, hvt, savePaths]
      rw [hpre, hn]
      apply List.map_congr_left
      intro i _
      congr 1
      omega

theorem hasStderr_append (a b : List Event) :
    hasStderr (a ++ b) = (hasStderr a || hasStderr b) := by
  simp [hasStderr, List.any_append]

theorem intervalLoop_stderr_eq (g : Grabber) (out : Str) (iv tl : ℚ) :
    ∀ (fuel : Nat) (elapsed : ℚ) (count : Nat),
      hasStderr (intervalLoop g out iv tl fuel elapsed count).1 =
        ((intervalLoop g out iv tl fuel elapsed count).2 == some false) := by
  intro fuel
  induction fuel with
  | zero =>
    intro elapsed count
    by_cases h : elapsed < tl <;> simp [intervalLoop, h, hasStderr]
  | succ f ih =>
    intro elapsed count
    by_cases h : elapsed < tl
    · cases hg : g.grabFail count with
      | some msg => simp [intervalLoop, h, hg, hasStderr]
      | none =>
        cases hs : g.saveFail count with
        | some msg => simp [intervalLoop, h, hg, hs, hasStderr]
        | none =>
          by_cases hr : 0 < tl - elapsed
          · have H := ih (elapsed + min iv (tl - elapsed)) (count + 1)
            simp [intervalLoop, h, hg, hs, hr, hasStderr] at H ⊢
            exact H
          · have H := ih elapsed (count + 1)
            simp [intervalLoop, h, hg, hs, hr, hasStderr] at H ⊢
            exact H
    · simp [intervalLoop, h, hasStderr]

/-- C8: runtime failures of the capture primitive or the encoder during
the grab/save step are caught at each operation's boundary: the operation
writes a message to the diagnostic stream and returns the boolean failure
result instead of propagating, and returns the boolean success result
exactly when every grab and save succeeded.  For interval capture nothing
propagates once validation passed, a failed run has written to the
diagnostic stream, and a successful run has not. -/
theorem c8_runtime_failure_policy (s : ScreenShot) (g : Grabber)
    (x1 y1 x2 y2 : Int) (iv tl : ℚ) (fuel : Nat) :
    ((s.capture_screen g).2.2 =
        Except.ok ((g.grabFail 0).isNone && (g.saveFail 0).isNone) ∧
      hasStderr (s.capture_screen g).2.1 =
        !((g.grabFail 0).isNone && (g.saveFail 0).isNone)) ∧
    (x1 < x2 → y1 < y2 → 0 ≤ x1 → 0 ≤ y1 →
      (s.capture_area g x1 y1 x2 y2).2.2 =
        Except.ok ((g.grabFail 0).isNone && (g.saveFail 0).isNone) ∧
      hasStderr (s.capture_area g x1 y1 x2 y2).2.1 =
        !((g.grabFail 0).isNone && (g.saveFail 0).isNone)) ∧
    (0 < iv → 0 < tl →
      exceptKind (s.capture_interval g iv tl fuel).2.2 = none ∧
      ((s.capture_interval g iv tl fuel).2.2 = Except.ok (some false) →
        hasStderr (s.capture_interval g iv tl fuel).2.1 = true) ∧
      ((s.capture_interval g iv tl fuel).2.2 = Except.ok (some true) →
        hasStderr (s.capture_interval g iv tl fuel).2.1 = false)) := by
  refine ⟨?_, ?_, ?_⟩
  · cases hg : g.grabFail 0 with
    | some e => simp [ScreenShot.capture_screen, hg, hasStderr]
    | none =>
      cases hs : g.saveFail 0 with
      | some e => simp [ScreenShot.capture_screen, hg, hs, hasStderr]
      | none => simp [ScreenShot.capture_screen, hg, hs, hasStderr]
  · intro h1 h2 h3 h4
    have hx : ¬ x1 ≥ x2 := not_le.mpr h1
    have hy : ¬ y1 ≥ y2 := not_le.mpr h2
    have hneg : ¬ (x1 < 0 ∨ y1 < 0 ∨ x2 < 0 ∨ y2 < 0) := by
      push_neg
      refine ⟨h3, h4, by omega, by omega⟩
    have hval : ScreenShot._validate_coordinates x1 y1 x2 y2 = .ok () := by
      unfold ScreenShot._validate_coordinates
      rw [if_neg hx, if_neg hy, if_neg hneg]
    cases hg : g.grabFail 0 with
    | some e => simp [ScreenShot.capture_area, hval, hg, hasStderr]
    | none =>
      cases hs : g.saveFail 0 with
      | some e => simp [ScreenShot.capture_area, hval, hg, hs, hasStderr]
      | none => simp [ScreenShot.capture_area, hval, hg, hs, hasStderr]
  · intro hiv htl
    have hvi : ScreenShot._validate_interval iv = .ok () := by
      simp [ScreenShot._validate_interval, not_le.mpr hiv]
    have hvt : ScreenShot._validate_time_limit tl = .ok () := by
      simp [ScreenShot._validate_time_limit, not_le.mpr htl]
    have hev : (s.capture_interval g iv tl fuel).2.1 =
        [Event.stdout "Waiting before starting interval capture",
         Event.sleep (s.delay : ℚ),
         Event.stdout "Starting interval capture"] ++
          (intervalLoop g s.output iv tl fuel 0 0).1 := by
      simp [ScreenShot.capture_interval, hvi, hvt]
    have hres : (s.capture_interval g iv tl fuel).2.2 =
        Except.ok (intervalLoop g s.output iv tl fuel 0 0).2 := by
      simp [ScreenShot.capture_interval, hvi, hvt]
    refine ⟨by rw [hres]; rfl, ?_, ?_⟩
    · intro hfalse
      rw [hres] at hfalse
      have h2 : (intervalLoop g s.output iv tl fuel 0 0).2 = some false :=
        Except.ok.inj hfalse
      rw [hev, hasStderr_append, intervalLoop_stderr_eq, h2]
      rfl
    · intro htrue
      rw [hres] at htrue
      have h2 : (intervalLoop g s.output iv tl fuel 0 0).2 = some true :=
        Except.ok.inj htrue
      rw [hev, hasStderr_append, intervalLoop_stderr_eq, h2]
      rfl

theorem c8_runtime_failure_policy_witness :
    (ScreenShot.capture_screen ⟨"a.png".data, 0⟩ grabberFailFirst).2.2 = Except.ok false ∧
    hasStderr (ScreenShot.capture_screen ⟨"a.png".data, 0⟩ grabberFailFirst).2.1 = true ∧
    exceptKind (ScreenShot.capture_interval ⟨"a.png".data, 0⟩ grabberFailFirst 1 2 5).2.2 =
      none := by
  refine ⟨?_, ?_, ?_⟩
  · have h := (c8_runtime_failure_policy ⟨"a.png".data, 0⟩ grabberFailFirst 0 0 5 5 1 2 3).1.1
    rw [h]
    decide
  · have h := (c8_runtime_failure_policy ⟨"a.png".data, 0⟩ grabberFailFirst 0 0 5 5 1 2 3).1.2
    rw [h]
    decide
  · exact ((c8_runtime_failure_policy ⟨"a.png".data, 0⟩ grabberFailFirst 0 0 5 5 1 2 5).2.2
      (by norm_num) (by norm_num)).1

/-- C9 counterexample: with both interval flags and a single region
coordinate supplied, screenshot_cli's mode resolution raises the
incomplete-coordinates usage error instead of running interval capture,
while screenshot.py's dispatch runs interval capture without any usage
error — so the claim's "interval flags present → interval capture runs"
and "supplying only some of the four region coordinates is a usage error"
cannot both hold of the code. -/
theorem c9_counterexample :
    (cornerArgs.interval.isSome || cornerArgs.time_limit.isSome) = true ∧
    cliResolveMode cornerArgs ≠ Except.ok CaptureType.interval ∧
    exceptKind (cliResolveMode cornerArgs) = some ErrKind.invalidArgument ∧
    mainDispatchMode cornerArgs = Except.ok CaptureType.interval := by
  decide

/-- C9 amended: both entry points select exactly one mode with the
precedence interval → region → fullscreen, with these argument-combination
errors: an incomplete interval pair is a usage error in both; an
incomplete coordinate set is a usage error in both when no interval flag
is present; when the interval pair is complete and coordinates are
partial, screenshot_cli raises the usage error first while screenshot.py's
dispatch runs interval capture. -/
theorem c9_mode_selection (a : CliArgs) :
    ((a.interval.isSome || a.time_limit.isSome) = true →
      (a.interval.isSome && a.time_limit.isSome) = false →
      exceptKind (cliResolveMode a) = some ErrKind.invalidArgument ∧
      exceptKind (mainDispatchMode a) = some ErrKind.invalidArgument) ∧
    ((a.interval.isSome && a.time_limit.isSome) = true →
      (a.x1.isSome || a.y1.isSome || a.x2.isSome || a.y2.isSome) = false →
      cliResolveMode a = Except.ok CaptureType.interval ∧
      mainDispatchMode a = Except.ok CaptureType.interval) ∧
    ((a.interval.isSome && a.time_limit.isSome) = true →
      (a.x1.isSome && a.y1.isSome && a.x2.isSome && a.y2.isSome) = true →
      cliResolveMode a = Except.ok CaptureType.interval ∧
      mainDispatchMode a = Except.ok CaptureType.interval) ∧
    ((a.interval.isSome && a.time_limit.isSome) = true →
      (a.x1.isSome || a.y1.isSome || a.x2.isSome || a.y2.isSome) = true →
      (a.x1.isSome && a.y1.isSome && a.x2.isSome && a.y2.isSome) = false →
      exceptKind (cliResolveMode a) = some ErrKind.invalidArgument ∧
      mainDispatchMode a = Except.ok CaptureType.interval) ∧
    ((a.interval.isSome || a.time_limit.isSome) = false →
      (a.x1.isSome && a.y1.isSome && a.x2.isSome && a.y2.isSome) = true →
      cliResolveMode a = Except.ok CaptureType.region ∧
      mainDispatchMode a = Except.ok CaptureType.region) ∧
    ((a.interval.isSome || a.time_limit.isSome) = false →
      (a.x1.isSome || a.y1.isSome || a.x2.isSome || a.y2.isSome) = true →
      (a.x1.isSome && a.y1.isSome && a.x2.isSome && a.y2.isSome) = false →
      exceptKind (cliResolveMode a) = some ErrKind.invalidArgument ∧
      exceptKind (mainDispatchMode a) = some ErrKind.invalidArgument) ∧
    ((a.interval.isSome || a.time_limit.isSome) = false →
      (a.x1.isSome || a.y1.isSome || a.x2.isSome || a.y2.isSome) = false →
      cliResolveMode a = Except.ok CaptureType.fullscreen ∧
      mainDispatchMode a = Except.ok CaptureType.fullscreen) := by
  rcases a with ⟨x1, y1, x2, y2, iv, tl⟩
  cases x1 <;> cases y1 <;> cases x2 <;> cases y2 <;> cases iv <;> cases tl <;>
    simp [cliResolveMode, validate_arguments, determine_capture_type,
      mainDispatchMode, exceptKind]

theorem c9_mode_selection_witness :
    cliResolveMode ⟨some 0, some 0, some 5, some 5, none, none⟩ =
      Except.ok CaptureType.region ∧
    cliResolveMode ⟨none, none, none, none, some 1, some 2⟩ =
      Except.ok CaptureType.interval := by
  constructor
  · exact ((c9_mode_selection ⟨some 0, some 0, some 5, some 5, none, none⟩).2.2.2.2.1
      (by decide) (by decide)).1
  · exact ((c9_mode_selection ⟨none, none, none, none, some 1, some 2⟩).2.1
      (by decide) (by decide)).1

/-- C10: each of the three capture operations leaves the session's stored
state — the resolved output path and the delay — unchanged; the interval
sequence counter is a local of the loop and never touches the session. -/
theorem c10_session_immutable (s : ScreenShot) (g : Grabber)
    (x1 y1 x2 y2 : Int) (iv tl : ℚ) (fuel : Nat) :
    (s.capture_screen g).1 = s ∧
    (s.capture_area g x1 y1 x2 y2).1 = s ∧
    (s.capture_interval g iv tl fuel).1 = s := by
  refine ⟨?_, ?_, ?_⟩
  · cases hg : g.grabFail 0 <;> cases hs : g.saveFail 0 <;>
      simp [ScreenShot.capture_screen, hg, hs]
  · cases hv : ScreenShot._validate_coordinates x1 y1 x2 y2 with
    | error e => simp [ScreenShot.capture_area, hv]
    | ok u =>
      cases u
      cases hg : g.grabFail 0 <;> cases hs : g.saveFail 0 <;>
        simp [ScreenShot.capture_area, hv, hg, hs]
  · cases hvi : ScreenShot._validate_interval iv with
    | error e => simp [ScreenShot.capture_interval, hvi]
    | ok u =>
      cases u
      cases hvt : ScreenShot._validate_time_limit tl with
      | error e => simp [ScreenShot.capture_interval, hvi, hvt]
      | ok u' =>
        cases u'
        simp [ScreenShot.capture_interval, hvi, hvt]

end ScreenShotSpec
